import Mathlib

/-!
Verification of the swap-math fee engine (`src/swap-math/src/math.rs`).

The Rust code is embedded shallowly: `u64`/`u128`/`u8` values become `Nat`
with explicit width bounds where they matter, every Rust checked operation
(`checked_mul`, `checked_div`, `checked_sub`) and the narrowing `to_u64`
become `Option Nat`-returning functions, and the `?` operator becomes
`Option.bind`.
-/

namespace SwapMath

/-- `MAX` constant from math.rs: `1 << 32`. -/
def MAX : Nat := 2 ^ 32

/-- `MAX_BIG` constant from math.rs: `1 << 48`. -/
def MAX_BIG : Nat := 2 ^ 48

/-- `MAX_SMALL` constant from math.rs: `1 << 16`. -/
def MAX_SMALL : Nat := 2 ^ 16

/-- Rust `u64::checked_mul`: the product, unless it overflows 64 bits. -/
def u64CheckedMul (a b : Nat) : Option Nat :=
  if a * b < 2 ^ 64 then some (a * b) else none

/-- Rust `u64::checked_div`: floor division, absent on a zero divisor. -/
def u64CheckedDiv (a b : Nat) : Option Nat :=
  if b = 0 then none else some (a / b)

/-- Rust `u128::checked_mul`: the product, unless it overflows 128 bits. -/
def u128CheckedMul (a b : Nat) : Option Nat :=
  if a * b < 2 ^ 128 then some (a * b) else none

/-- Rust `u128::checked_div`: floor division, absent on a zero divisor. -/
def u128CheckedDiv (a b : Nat) : Option Nat :=
  if b = 0 then none else some (a / b)

/-- Rust `ToPrimitive::to_u64` on a `u128` value: narrows, absent when the
value does not fit in 64 bits. -/
def toU64 (x : Nat) : Option Nat :=
  if x < 2 ^ 64 then some x else none

/-- Rust `u8::checked_sub`: the difference, absent on underflow. -/
def u8CheckedSub (a b : Nat) : Option Nat :=
  if b ≤ a then some (a - b) else none

/-- Rust `u8::checked_mul`: the product, unless it overflows 8 bits. -/
def u8CheckedMul (a b : Nat) : Option Nat :=
  if a * b < 2 ^ 8 then some (a * b) else none

/-- `mul_div` from math.rs: computes `floor(a*b/c)`, widening to 128-bit
arithmetic when `a > MAX || b > MAX`, otherwise using checked 64-bit
arithmetic. -/
def mul_div (a b c : Nat) : Option Nat :=
  if a > MAX ∨ b > MAX then
    (u128CheckedMul a b).bind fun p => (u128CheckedDiv p c).bind toU64
  else
    (u64CheckedMul a b).bind fun p => u64CheckedDiv p c

/-- `mul_div_imbalanced` from math.rs: same as `mul_div` but widens when
`a > MAX_BIG || b > MAX_SMALL`. -/
def mul_div_imbalanced (a b c : Nat) : Option Nat :=
  if a > MAX_BIG ∨ b > MAX_SMALL then
    (u128CheckedMul a b).bind fun p => (u128CheckedDiv p c).bind toU64
  else
    (u64CheckedMul a b).bind fun p => u64CheckedDiv p c

/-- The `Fees` configuration (from the `swap_client::fees` crate): the four
numerator/denominator rate pairs read by `impl FeeCalculator for Fees`. -/
structure Fees where
  admin_trade_fee_numerator : Nat
  admin_trade_fee_denominator : Nat
  admin_withdraw_fee_numerator : Nat
  admin_withdraw_fee_denominator : Nat
  trade_fee_numerator : Nat
  trade_fee_denominator : Nat
  withdraw_fee_numerator : Nat
  withdraw_fee_denominator : Nat

/-- `Fees::admin_trade_fee` from math.rs. -/
def admin_trade_fee (f : Fees) (fee_amount : Nat) : Option Nat :=
  mul_div_imbalanced fee_amount f.admin_trade_fee_numerator
    f.admin_trade_fee_denominator

/-- `Fees::admin_withdraw_fee` from math.rs. -/
def admin_withdraw_fee (f : Fees) (fee_amount : Nat) : Option Nat :=
  mul_div_imbalanced fee_amount f.admin_withdraw_fee_numerator
    f.admin_withdraw_fee_denominator

/-- `Fees::trade_fee` from math.rs. -/
def trade_fee (f : Fees) (trade_amount : Nat) : Option Nat :=
  mul_div_imbalanced trade_amount f.trade_fee_numerator
    f.trade_fee_denominator

/-- `Fees::withdraw_fee` from math.rs. -/
def withdraw_fee (f : Fees) (withdraw_amount : Nat) : Option Nat :=
  mul_div_imbalanced withdraw_amount f.withdraw_fee_numerator
    f.withdraw_fee_denominator

/-- `Fees::normalized_trade_fee` from math.rs: the divisor
`(n_coins - 1) * 4` is computed with `u8` checked arithmetic, then the
adjusted numerator and the final fee via two `mul_div` calls chained by
`?`. -/
def normalized_trade_fee (f : Fees) (n_coins amount : Nat) : Option Nat :=
  ((u8CheckedSub n_coins 1).bind fun d =>
    (u8CheckedMul d 4).bind fun den =>
      mul_div f.trade_fee_numerator n_coins den).bind
    fun adjusted_trade_fee_numerator =>
      mul_div amount adjusted_trade_fee_numerator f.trade_fee_denominator

/-- The specification's wording of `normalized_trade_fee` (for the
refinement comparison of claim C2): the divisor `4*(n_coins-1)` is a plain
mathematical value, not a `u8` checked computation. -/
def normalized_trade_fee_claim (f : Fees) (n_coins amount : Nat) : Option Nat :=
  (mul_div f.trade_fee_numerator n_coins (4 * (n_coins - 1))).bind
    fun adjusted => mul_div amount adjusted f.trade_fee_denominator

/-- Binding a constantly-absent continuation yields an absent result. -/
lemma bind_fun_none (o : Option Nat) :
    o.bind (fun _ => (none : Option Nat)) = none := by
  cases o <;> rfl

/-- An `Option` is either absent or present. -/
lemma option_total (o : Option Nat) : o = none ∨ ∃ v, o = some v := by
  cases o with
  | none => exact Or.inl rfl
  | some v => exact Or.inr ⟨v, rfl⟩

/-- A zero divisor makes `mul_div` absent, on both paths. -/
lemma mul_div_zero (a b : Nat) : mul_div a b 0 = none := by
  unfold mul_div u128CheckedMul u128CheckedDiv u64CheckedMul u64CheckedDiv
  split_ifs <;> simp_all [toU64]

/-- A zero divisor makes `mul_div_imbalanced` absent, on both paths. -/
lemma mul_div_imbalanced_zero (a b : Nat) : mul_div_imbalanced a b 0 = none := by
  unfold mul_div_imbalanced u128CheckedMul u128CheckedDiv u64CheckedMul u64CheckedDiv
  split_ifs <;> simp_all [toU64]

/-- Strict product bound: two bounded factors not both at their bound give a
product strictly below the product of the bounds. -/
lemma mul_lt_of_le_of_ne {a b A B : Nat} (ha : a ≤ A) (hb : b ≤ B)
    (h : a ≠ A ∨ b ≠ B) (hA : 0 < A) (hB : 0 < B) : a * b < A * B := by
  rcases h with h | h
  · exact Nat.mul_lt_mul_of_lt_of_le (lt_of_le_of_ne ha h) hb hB
  · exact Nat.mul_lt_mul_of_le_of_lt ha (lt_of_le_of_ne hb h) hA

/-- The product of two 64-bit values always fits in 128 bits. -/
lemma mul_lt_two_pow_128 {a b : Nat} (ha : a < 2 ^ 64) (hb : b < 2 ^ 64) :
    a * b < 2 ^ 128 := by
  calc a * b < 2 ^ 64 * 2 ^ 64 :=
        Nat.mul_lt_mul_of_lt_of_le ha (le_of_lt hb) (by positivity)
    _ = 2 ^ 128 := by norm_num

/-- The widened 128-bit path returns exactly `floor(a*b/c)` when the product
fits in 128 bits, the divisor is nonzero, and the quotient fits in 64 bits. -/
lemma wide_exact {a b c : Nat} (hab : a * b < 2 ^ 128) (hc : c ≠ 0)
    (hq : a * b / c < 2 ^ 64) :
    ((u128CheckedMul a b).bind fun p => (u128CheckedDiv p c).bind toU64) =
      some (a * b / c) := by
  unfold u128CheckedMul u128CheckedDiv toU64
  rw [if_pos hab, Option.some_bind, if_neg hc, Option.some_bind, if_pos hq]

/-- The narrow 64-bit path returns exactly `floor(a*b/c)` when the product
fits in 64 bits and the divisor is nonzero. -/
lemma narrow_exact {a b c : Nat} (hab : a * b < 2 ^ 64) (hc : c ≠ 0) :
    ((u64CheckedMul a b).bind fun p => u64CheckedDiv p c) = some (a * b / c) := by
  unfold u64CheckedMul u64CheckedDiv
  rw [if_pos hab, Option.some_bind, if_neg hc]

/-- C1 (amended): for 64-bit `a`, `b` and nonzero `c` with `floor(a*b/c)`
representable in 64 bits, `mul_div a b c` returns exactly `floor(a*b/c)` —
except when both operands sit exactly at the widening thresholds
(`a = 2^32` and `b = 2^32`), where the narrow path's 64-bit product
overflows; likewise `mul_div_imbalanced`, except at `a = 2^48` and
`b = 2^16`. -/
theorem C1_amended (a b c : Nat) (ha : a < 2 ^ 64) (hb : b < 2 ^ 64) (hc : c ≠ 0)
    (hq : a * b / c < 2 ^ 64) :
    (¬(a = 2 ^ 32 ∧ b = 2 ^ 32) → mul_div a b c = some (a * b / c)) ∧
    (¬(a = 2 ^ 48 ∧ b = 2 ^ 16) → mul_div_imbalanced a b c = some (a * b / c)) := by
  constructor
  · intro hno
    unfold mul_div
    by_cases hw : a > MAX ∨ b > MAX
    · rw [if_pos hw]
      exact wide_exact (mul_lt_two_pow_128 ha hb) hc hq
    · rw [if_neg hw]
      push_neg at hw
      have hw' : a ≤ 2 ^ 32 ∧ b ≤ 2 ^ 32 := hw
      have hne : a ≠ 2 ^ 32 ∨ b ≠ 2 ^ 32 := by tauto
      have hab : a * b < 2 ^ 64 := by
        calc a * b < 2 ^ 32 * 2 ^ 32 :=
              mul_lt_of_le_of_ne hw'.1 hw'.2 hne (by positivity) (by positivity)
          _ = 2 ^ 64 := by norm_num
      exact narrow_exact hab hc
  · intro hno
    unfold mul_div_imbalanced
    by_cases hw : a > MAX_BIG ∨ b > MAX_SMALL
    · rw [if_pos hw]
      exact wide_exact (mul_lt_two_pow_128 ha hb) hc hq
    · rw [if_neg hw]
      push_neg at hw
      have hw' : a ≤ 2 ^ 48 ∧ b ≤ 2 ^ 16 := hw
      have hne : a ≠ 2 ^ 48 ∨ b ≠ 2 ^ 16 := by tauto
      have hab : a * b < 2 ^ 64 := by
        calc a * b < 2 ^ 48 * 2 ^ 16 :=
              mul_lt_of_le_of_ne hw'.1 hw'.2 hne (by positivity) (by positivity)
          _ = 2 ^ 64 := by norm_num
      exact narrow_exact hab hc

/-- C1 counterexample: at `a = b = 2^32`, `c = 2` all of the claim's
hypotheses hold (operands are valid `u64`, `c ≠ 0`, the product fits in 128
bits, `floor(a*b/c) = 2^63` fits in 64 bits), yet `mul_div` is absent: the
narrow path is taken (`a > MAX` and `b > MAX` are both false) and its 64-bit
`checked_mul` overflows at `2^64`. The analogous boundary
`mul_div_imbalanced (2^48) (2^16) 2` is absent too. -/
theorem C1_counterexample :
    (2 : Nat) ^ 32 < 2 ^ 64 ∧ (2 : Nat) ≠ 0 ∧
    (2 : Nat) ^ 32 * 2 ^ 32 < 2 ^ 128 ∧ (2 : Nat) ^ 32 * 2 ^ 32 / 2 < 2 ^ 64 ∧
    mul_div (2 ^ 32) (2 ^ 32) 2 = none ∧
    mul_div_imbalanced (2 ^ 48) (2 ^ 16) 2 = none := by
  refine ⟨by norm_num, by norm_num, by norm_num, by norm_num, by decide, by decide⟩

/-- C1 witness: both primitives are exact at `a = 1000000`, `b = 25`,
`c = 10000`. -/
theorem C1_witness :
    (1000000 : Nat) < 2 ^ 64 ∧ (25 : Nat) < 2 ^ 64 ∧ (10000 : Nat) ≠ 0 ∧
    (1000000 : Nat) * 25 / 10000 < 2 ^ 64 ∧
    ¬((1000000 : Nat) = 2 ^ 32 ∧ (25 : Nat) = 2 ^ 32) ∧
    ¬((1000000 : Nat) = 2 ^ 48 ∧ (25 : Nat) = 2 ^ 16) ∧
    mul_div 1000000 25 10000 = some (1000000 * 25 / 10000) ∧
    mul_div_imbalanced 1000000 25 10000 = some (1000000 * 25 / 10000) :=
  ⟨by norm_num, by norm_num, by norm_num, by norm_num, by norm_num, by norm_num,
   (C1_amended 1000000 25 10000 (by norm_num) (by norm_num) (by norm_num)
      (by norm_num)).1 (by norm_num),
   (C1_amended 1000000 25 10000 (by norm_num) (by norm_num) (by norm_num)
      (by norm_num)).2 (by norm_num)⟩

/-- C2 counterexample: at `n_coins = 65` with `trade_fee_numerator = 256`
and `trade_fee_denominator = 1`, the code's `u8` computation
`(n_coins - 1) * 4 = 256` overflows 8 bits and `normalized_trade_fee` is
absent, while the claim's composition with mathematical divisor
`4*(n_coins-1) = 256` is present with value 65. -/
theorem C2_counterexample :
    normalized_trade_fee ⟨0, 0, 0, 0, 256, 1, 0, 0⟩ 65 1 = none ∧
    normalized_trade_fee_claim ⟨0, 0, 0, 0, 256, 1, 0, 0⟩ 65 1 = some 65 := by
  constructor <;> decide

/-- C2 (amended): for `1 ≤ n_coins ≤ 64` — the range where the 8-bit
computation of the divisor `(n_coins - 1) * 4` succeeds —
`normalized_trade_fee` is exactly the claimed two-step composition
`mul_div(trade_fee_numerator, n_coins, 4*(n_coins-1))` followed by
`mul_div(amount, adjusted, trade_fee_denominator)`, with an absent first
step short-circuiting the second (the composition is by `Option.bind`). -/
theorem C2_amended (f : Fees) (n amount : Nat) (h1 : 1 ≤ n) (h64 : n ≤ 64) :
    normalized_trade_fee f n amount = normalized_trade_fee_claim f n amount := by
  have hmul : (n - 1) * 4 < 2 ^ 8 := by omega
  unfold normalized_trade_fee normalized_trade_fee_claim u8CheckedSub u8CheckedMul
  rw [if_pos h1, Option.some_bind, if_pos hmul, Option.some_bind,
    Nat.mul_comm (n - 1) 4]

/-- C2 witness: the composition equality at `n_coins = 4`,
`amount = 1000000` with the 25/10000 trade-fee rate. -/
theorem C2_witness :
    (1 : Nat) ≤ 4 ∧ (4 : Nat) ≤ 64 ∧
    normalized_trade_fee ⟨0, 0, 0, 0, 25, 10000, 0, 0⟩ 4 1000000 =
      normalized_trade_fee_claim ⟨0, 0, 0, 0, 25, 10000, 0, 0⟩ 4 1000000 :=
  ⟨by norm_num, by norm_num,
   C2_amended ⟨0, 0, 0, 0, 25, 10000, 0, 0⟩ 4 1000000 (by norm_num) (by norm_num)⟩

/-- C3: for every `u8` value `n_coins ≥ 65`, every amount and every fee
configuration, `normalized_trade_fee` is absent: the divisor
`(n_coins - 1) * 4` is computed with an 8-bit checked multiply, which fails
once `(n_coins - 1) * 4` exceeds 255. -/
theorem C3 (f : Fees) (n amount : Nat) (h65 : 65 ≤ n) (h256 : n < 2 ^ 8) :
    normalized_trade_fee f n amount = none := by
  have h1 : 1 ≤ n := by omega
  have h4 : ¬((n - 1) * 4 < 2 ^ 8) := by omega
  unfold normalized_trade_fee u8CheckedSub u8CheckedMul
  rw [if_pos h1, Option.some_bind, if_neg h4]
  rfl

/-- C3 witness: `normalized_trade_fee` is absent at `n_coins = 65`. -/
theorem C3_witness :
    (65 : Nat) ≥ 65 ∧ (65 : Nat) < 2 ^ 8 ∧
    normalized_trade_fee ⟨0, 0, 0, 0, 25, 10000, 0, 0⟩ 65 100 = none :=
  ⟨by norm_num, by norm_num,
   C3 ⟨0, 0, 0, 0, 25, 10000, 0, 0⟩ 65 100 (by norm_num) (by norm_num)⟩

/-- C4: for 64-bit `a`, `b`, both primitives are absent on a zero divisor,
and for any nonzero `c`, whenever `floor(a*b/c)` exceeds the maximum `u64`
value both primitives are absent — never a wrapped value and never a
fault. -/
theorem C4 (a b c : Nat) (ha : a < 2 ^ 64) (hb : b < 2 ^ 64) :
    (mul_div a b 0 = none ∧ mul_div_imbalanced a b 0 = none) ∧
    (c ≠ 0 → 2 ^ 64 ≤ a * b / c →
      mul_div a b c = none ∧ mul_div_imbalanced a b c = none) := by
  refine ⟨⟨mul_div_zero a b, mul_div_imbalanced_zero a b⟩, fun hc hq => ?_⟩
  have hab64 : 2 ^ 64 ≤ a * b := by
    have h := (Nat.le_div_iff_mul_le (Nat.pos_of_ne_zero hc)).mp hq
    have hc1 : 1 ≤ c := Nat.pos_of_ne_zero hc
    exact Nat.le_trans (Nat.le_mul_of_pos_right (2 ^ 64) hc1) h
  have hp128 : a * b < 2 ^ 128 := mul_lt_two_pow_128 ha hb
  constructor
  · unfold mul_div
    by_cases hw : a > MAX ∨ b > MAX
    · rw [if_pos hw]
      unfold u128CheckedMul u128CheckedDiv toU64
      rw [if_pos hp128, Option.some_bind, if_neg hc, Option.some_bind,
        if_neg (Nat.not_lt.mpr hq)]
    · rw [if_neg hw]
      unfold u64CheckedMul
      rw [if_neg (Nat.not_lt.mpr hab64)]
      rfl
  · unfold mul_div_imbalanced
    by_cases hw : a > MAX_BIG ∨ b > MAX_SMALL
    · rw [if_pos hw]
      unfold u128CheckedMul u128CheckedDiv toU64
      rw [if_pos hp128, Option.some_bind, if_neg hc, Option.some_bind,
        if_neg (Nat.not_lt.mpr hq)]
    · rw [if_neg hw]
      unfold u64CheckedMul
      rw [if_neg (Nat.not_lt.mpr hab64)]
      rfl

/-- C4 witness: `mul_div (2^40) (2^40) 0` and `mul_div (2^40) (2^40) 1` are
both absent (the latter because the quotient `2^80` does not fit in 64
bits), likewise for `mul_div_imbalanced`. -/
theorem C4_witness :
    (2 : Nat) ^ 40 < 2 ^ 64 ∧
    mul_div (2 ^ 40) (2 ^ 40) 0 = none ∧
    mul_div_imbalanced (2 ^ 40) (2 ^ 40) 0 = none ∧
    (1 : Nat) ≠ 0 ∧ 2 ^ 64 ≤ (2 : Nat) ^ 40 * 2 ^ 40 / 1 ∧
    mul_div (2 ^ 40) (2 ^ 40) 1 = none ∧
    mul_div_imbalanced (2 ^ 40) (2 ^ 40) 1 = none :=
  ⟨by norm_num,
   (C4 (2 ^ 40) (2 ^ 40) 1 (by norm_num) (by norm_num)).1.1,
   (C4 (2 ^ 40) (2 ^ 40) 1 (by norm_num) (by norm_num)).1.2,
   by norm_num, by norm_num,
   ((C4 (2 ^ 40) (2 ^ 40) 1 (by norm_num) (by norm_num)).2 (by norm_num)
      (by norm_num)).1,
   ((C4 (2 ^ 40) (2 ^ 40) 1 (by norm_num) (by norm_num)).2 (by norm_num)
      (by norm_num)).2⟩

/-- C5: for every fee configuration and amount, `normalized_trade_fee` is
absent at `n_coins = 0` (the `u8` subtraction `n_coins - 1` fails without
wrapping) and at `n_coins = 1` (the divisor `4*(n_coins-1)` collapses to
zero). -/
theorem C5 (f : Fees) (amount : Nat) :
    normalized_trade_fee f 0 amount = none ∧
    normalized_trade_fee f 1 amount = none := by
  constructor
  · unfold normalized_trade_fee u8CheckedSub
    rw [if_neg (by norm_num : ¬(1 ≤ 0))]
    rfl
  · unfold normalized_trade_fee u8CheckedSub u8CheckedMul
    rw [if_pos (by norm_num : (1 : Nat) ≤ 1), Option.some_bind,
      if_pos (by norm_num : (1 - 1) * 4 < 2 ^ 8), Option.some_bind]
    simp [mul_div_zero, bind_fun_none]

/-- C6: a zero denominator makes the corresponding fee operation absent:
each of the five fee operations returns `none` whenever the rate
denominator it uses is zero. -/
theorem C6 (f : Fees) (n amount : Nat) :
    (f.admin_trade_fee_denominator = 0 → admin_trade_fee f amount = none) ∧
    (f.admin_withdraw_fee_denominator = 0 → admin_withdraw_fee f amount = none) ∧
    (f.withdraw_fee_denominator = 0 → withdraw_fee f amount = none) ∧
    (f.trade_fee_denominator = 0 → trade_fee f amount = none) ∧
    (f.trade_fee_denominator = 0 → normalized_trade_fee f n amount = none) := by
  refine ⟨fun h => ?_, fun h => ?_, fun h => ?_, fun h => ?_, fun h => ?_⟩
  · unfold admin_trade_fee
    rw [h]
    exact mul_div_imbalanced_zero _ _
  · unfold admin_withdraw_fee
    rw [h]
    exact mul_div_imbalanced_zero _ _
  · unfold withdraw_fee
    rw [h]
    exact mul_div_imbalanced_zero _ _
  · unfold trade_fee
    rw [h]
    exact mul_div_imbalanced_zero _ _
  · unfold normalized_trade_fee
    rw [h]
    simp [mul_div_zero, bind_fun_none]

/-- C6 witness: all five fee operations are absent on a configuration whose
four denominators are zero. -/
theorem C6_witness :
    admin_trade_fee ⟨1, 0, 2, 0, 3, 0, 4, 0⟩ 5 = none ∧
    admin_withdraw_fee ⟨1, 0, 2, 0, 3, 0, 4, 0⟩ 5 = none ∧
    withdraw_fee ⟨1, 0, 2, 0, 3, 0, 4, 0⟩ 5 = none ∧
    trade_fee ⟨1, 0, 2, 0, 3, 0, 4, 0⟩ 5 = none ∧
    normalized_trade_fee ⟨1, 0, 2, 0, 3, 0, 4, 0⟩ 4 5 = none :=
  ⟨(C6 ⟨1, 0, 2, 0, 3, 0, 4, 0⟩ 4 5).1 rfl,
   (C6 ⟨1, 0, 2, 0, 3, 0, 4, 0⟩ 4 5).2.1 rfl,
   (C6 ⟨1, 0, 2, 0, 3, 0, 4, 0⟩ 4 5).2.2.1 rfl,
   (C6 ⟨1, 0, 2, 0, 3, 0, 4, 0⟩ 4 5).2.2.2.1 rfl,
   (C6 ⟨1, 0, 2, 0, 3, 0, 4, 0⟩ 4 5).2.2.2.2 rfl⟩

/-- C7: each of the four flat-rate fee operations is exactly
`mul_div_imbalanced` applied to its amount and its own
numerator/denominator pair. -/
theorem C7 (f : Fees) (x : Nat) :
    admin_trade_fee f x =
      mul_div_imbalanced x f.admin_trade_fee_numerator f.admin_trade_fee_denominator ∧
    admin_withdraw_fee f x =
      mul_div_imbalanced x f.admin_withdraw_fee_numerator f.admin_withdraw_fee_denominator ∧
    trade_fee f x =
      mul_div_imbalanced x f.trade_fee_numerator f.trade_fee_denominator ∧
    withdraw_fee f x =
      mul_div_imbalanced x f.withdraw_fee_numerator f.withdraw_fee_denominator :=
  ⟨rfl, rfl, rfl, rfl⟩

/-- C8: with `trade_fee_numerator = 25` and `trade_fee_denominator = 10000`,
`normalized_trade_fee 4 1000000 = 800`: the adjusted numerator is
`floor(25*4/12) = 8` and the final result `floor(1000000*8/10000) = 800`. -/
theorem C8 (f : Fees) (h1 : f.trade_fee_numerator = 25)
    (h2 : f.trade_fee_denominator = 10000) :
    normalized_trade_fee f 4 1000000 = some 800 ∧
    mul_div 25 4 (4 * (4 - 1)) = some 8 ∧
    mul_div 1000000 8 10000 = some 800 := by
  refine ⟨?_, by decide, by decide⟩
  unfold normalized_trade_fee
  rw [h1, h2]
  decide

/-- C8 witness: the concrete 25/10000 configuration. -/
theorem C8_witness :
    (⟨0, 0, 0, 0, 25, 10000, 0, 0⟩ : Fees).trade_fee_numerator = 25 ∧
    (⟨0, 0, 0, 0, 25, 10000, 0, 0⟩ : Fees).trade_fee_denominator = 10000 ∧
    normalized_trade_fee ⟨0, 0, 0, 0, 25, 10000, 0, 0⟩ 4 1000000 = some 800 :=
  ⟨rfl, rfl, (C8 ⟨0, 0, 0, 0, 25, 10000, 0, 0⟩ rfl rfl).1⟩

/-- C9: every operation of the engine is total: for every input it returns
either an absent or a present value — in this embedding every fallible Rust
operation is an `Option` and there is no other failure path. -/
theorem C9 (f : Fees) (a b c n x : Nat) :
    (mul_div a b c = none ∨ ∃ v, mul_div a b c = some v) ∧
    (mul_div_imbalanced a b c = none ∨ ∃ v, mul_div_imbalanced a b c = some v) ∧
    (admin_trade_fee f x = none ∨ ∃ v, admin_trade_fee f x = some v) ∧
    (admin_withdraw_fee f x = none ∨ ∃ v, admin_withdraw_fee f x = some v) ∧
    (trade_fee f x = none ∨ ∃ v, trade_fee f x = some v) ∧
    (withdraw_fee f x = none ∨ ∃ v, withdraw_fee f x = some v) ∧
    (normalized_trade_fee f n x = none ∨ ∃ v, normalized_trade_fee f n x = some v) :=
  ⟨option_total _, option_total _, option_total _, option_total _,
   option_total _, option_total _, option_total _⟩

/-- C10: every operation is deterministic: identical fee configurations and
identical arguments give identical outputs, for the primitives and all five
fee operations. -/
theorem C10 (f f' : Fees) (a b c a' b' c' n n' x x' : Nat)
    (hf : f = f') (ha : a = a') (hb : b = b') (hc : c = c') (hn : n = n')
    (hx : x = x') :
    mul_div a b c = mul_div a' b' c' ∧
    mul_div_imbalanced a b c = mul_div_imbalanced a' b' c' ∧
    admin_trade_fee f x = admin_trade_fee f' x' ∧
    admin_withdraw_fee f x = admin_withdraw_fee f' x' ∧
    trade_fee f x = trade_fee f' x' ∧
    withdraw_fee f x = withdraw_fee f' x' ∧
    normalized_trade_fee f n x = normalized_trade_fee f' n' x' := by
  subst hf ha hb hc hn hx
  exact ⟨rfl, rfl, rfl, rfl, rfl, rfl, rfl⟩

/-- C10 witness: determinism at concrete inputs. -/
theorem C10_witness :
    mul_div 6 7 2 = mul_div 6 7 2 ∧
    mul_div_imbalanced 6 7 2 = mul_div_imbalanced 6 7 2 ∧
    admin_trade_fee ⟨1, 2, 3, 4, 5, 6, 7, 8⟩ 9 = admin_trade_fee ⟨1, 2, 3, 4, 5, 6, 7, 8⟩ 9 ∧
    admin_withdraw_fee ⟨1, 2, 3, 4, 5, 6, 7, 8⟩ 9 = admin_withdraw_fee ⟨1, 2, 3, 4, 5, 6, 7, 8⟩ 9 ∧
    trade_fee ⟨1, 2, 3, 4, 5, 6, 7, 8⟩ 9 = trade_fee ⟨1, 2, 3, 4, 5, 6, 7, 8⟩ 9 ∧
    withdraw_fee ⟨1, 2, 3, 4, 5, 6, 7, 8⟩ 9 = withdraw_fee ⟨1, 2, 3, 4, 5, 6, 7, 8⟩ 9 ∧
    normalized_trade_fee ⟨1, 2, 3, 4, 5, 6, 7, 8⟩ 4 9 = normalized_trade_fee ⟨1, 2, 3, 4, 5, 6, 7, 8⟩ 4 9 :=
  C10 ⟨1, 2, 3, 4, 5, 6, 7, 8⟩ ⟨1, 2, 3, 4, 5, 6, 7, 8⟩ 6 7 2 6 7 2 4 4 9 9
    rfl rfl rfl rfl rfl rfl

end SwapMath
